import Mathlib

/-!
Verification development for the EDO agreement-generation system
(`modules/agreement_processor.py`, `modules/database_manager.py`,
`modules/openai_processor.py` and collaborators).

The Python source is embedded shallowly: pure string manipulation is
translated to functions over `List Char` / `String`; the stateful
orchestrator (`AgreementProcessor`) becomes explicit state passing over a
`St` record, with the external collaborators (Kontur Focus resolver,
OpenAI case normalizer, document filler, Diadoc транспорт) abstracted as
outcome streams in an `Env` record, and the interactive error-arbitration
callback as a list of `Decision`s consumed in order.
-/

namespace Edo

/-! ## String helpers (models of Python str operations over `List Char`) -/

/-- Model of Python `str.strip()`: drop whitespace from both ends. -/
def pyStrip (l : List Char) : List Char :=
  ((l.dropWhile Char.isWhitespace).reverse.dropWhile Char.isWhitespace).reverse

/-- Model of Python `str.replace(' ', '')`: remove every space character. -/
def removeSpaces (l : List Char) : List Char :=
  l.filter (fun c => c ≠ ' ')

/-- Numeric value of a decimal digit character. -/
def digitVal (c : Char) : Nat := c.toNat - 48

/-- Value of a list of decimal digit characters, most significant first. -/
def digitsToNat (l : List Char) : Nat :=
  l.foldl (fun a c => 10 * a + digitVal c) 0

/-- Decimal digit character for `n < 10`. -/
def digitChar (n : Nat) : Char := Char.ofNat (48 + n)

/-- Fuel-driven decimal printer for naturals (helper for `natDecDigits`).
The fuel argument makes the recursion structural so that concrete
applications reduce definitionally. -/
def natDecDigitsAux : Nat → Nat → List Char
  | 0, _ => []
  | fuel + 1, n =>
    if n < 10 then [digitChar n]
    else natDecDigitsAux fuel (n / 10) ++ [digitChar (n % 10)]

/-- Decimal digit string of a natural number, models Python `str(n)` for
`n ≥ 0`. -/
def natDecDigits (n : Nat) : List Char := natDecDigitsAux (n + 1) n

/-- Model of Python `str(n)` for an arbitrary integer. -/
def intDecString (n : Int) : List Char :=
  if n < 0 then '-' :: natDecDigits n.natAbs else natDecDigits n.natAbs

/-! ## Model of CPython `float`/`int` string conversion

`DatabaseManager._fix_inn_format` computes `str(int(float(inn_str)))` on
strings containing `E`/`e`.  We model the composition `int(float s)` by
parsing the decimal literal exactly as a rational and truncating toward
zero.  This is exactly CPython behaviour whenever the denoted value is an
integer of magnitude below `2 ^ 53` (every well-formed tax ID: at most 12
digits), because such values round-trip exactly through an IEEE binary64;
for larger magnitudes CPython rounds to the nearest double first, which
this model does not reproduce.  Underscored literals and `inf`/`nan`
(which make `int(...)` raise, landing in the same `except` branch as a
parse failure) are rejected by the parser, giving the same observable
result as the source. -/

/-- Consume an optional leading sign; `true` means negative. -/
def parseSign : List Char → Bool × List Char
  | [] => (false, [])
  | c :: r =>
    if c = '+' then (false, r)
    else if c = '-' then (true, r)
    else (false, c :: r)

/-- Parse the exponent suffix (empty, or `e`/`E` followed by an optional
sign and digits, consuming the whole rest). -/
def parseExp : List Char → Option Int
  | [] => some 0
  | c :: r =>
    if c = 'e' ∨ c = 'E' then
      let (eneg, r1) := parseSign r
      let ed := r1.takeWhile Char.isDigit
      if ed.isEmpty ∨ ¬(r1.dropWhile Char.isDigit).isEmpty then none
      else some (if eneg then -(digitsToNat ed : Int) else (digitsToNat ed : Int))
    else none

/-- Parse a Python float literal into (negative?, integer digits,
fraction digits, decimal exponent). -/
def pyFloatParts (l : List Char) : Option (Bool × List Char × List Char × Int) :=
  let (neg, l1) := parseSign l
  let ip := l1.takeWhile Char.isDigit
  let l2 := l1.dropWhile Char.isDigit
  let (fp, l3) :=
    match l2 with
    | [] => ([], ([] : List Char))
    | c :: r =>
      if c = '.' then (r.takeWhile Char.isDigit, r.dropWhile Char.isDigit)
      else ([], c :: r)
  if ip.isEmpty ∧ fp.isEmpty then none
  else
    match parseExp l3 with
    | none => none
    | some e => some (neg, ip, fp, e)

/-- Model of `int(float s)` (truncation toward zero), exact on decimal
literals denoting integers of magnitude below `2 ^ 53`. -/
def pyFloatInt (l : List Char) : Option Int :=
  match pyFloatParts l with
  | none => none
  | some (neg, ip, fp, e) =>
    let m := digitsToNat (ip ++ fp)
    let sc : Int := e - (fp.length : Int)
    let mag : Nat := if 0 ≤ sc then m * 10 ^ sc.toNat else m / 10 ^ (-sc).toNat
    some (if neg then -(mag : Int) else (mag : Int))

/-- `DatabaseManager._fix_inn_format` (database_manager.py lines 101-128),
char-list core.  Strips whitespace and interior spaces; on `E`/`e` it
replaces `,` with `.` and returns `str(int(float(...)))`, falling back to
the stripped input when the conversion raises; otherwise it removes a
trailing `.0` and keeps only digit characters.  The `pd.isna` guard
applies to non-string (NaN) cells and is outside this string model. -/
def fixInnChars (l : List Char) : List Char :=
  let s := removeSpaces (pyStrip l)
  if s.isEmpty then []
  else if s.contains 'E' ∨ s.contains 'e' then
    let s2 := s.map (fun c => if c = ',' then '.' else c)
    match pyFloatInt s2 with
    | some n => intDecString n
    | none => s
  else
    let s3 :=
      if 2 ≤ s.length ∧ s.drop (s.length - 2) = ['.', '0'] then s.take (s.length - 2)
      else s
    s3.filter Char.isDigit

/-- `DatabaseManager._fix_inn_format`, string boundary. -/
def fix_inn_format (s : String) : String := ⟨fixInnChars s.data⟩

/-! ## Dates (`parse_date` in `AgreementProcessor.process_by_period`) -/

/-- Calendar date, year/month/day. -/
structure Date where
  y : Nat
  m : Nat
  d : Nat
deriving DecidableEq

/-- Lexicographic order on dates, models Python `date` comparison. -/
def dateLe (a b : Date) : Bool :=
  Nat.blt a.y b.y ||
    (a.y == b.y && (Nat.blt a.m b.m || (a.m == b.m && Nat.ble a.d b.d)))

/-- Gregorian leap-year rule. -/
def isLeap (y : Nat) : Bool :=
  (y % 4 == 0 && y % 100 != 0) || y % 400 == 0

/-- Days in a month, Gregorian calendar. -/
def daysInMonth (y m : Nat) : Nat :=
  if m = 1 ∨ m = 3 ∨ m = 5 ∨ m = 7 ∨ m = 8 ∨ m = 10 ∨ m = 12 then 31
  else if m = 4 ∨ m = 6 ∨ m = 9 ∨ m = 11 then 30
  else if m = 2 then (if isLeap y then 29 else 28)
  else 0

/-- Model of Python `str.split(sep)` for a single-character separator. -/
def splitOnChar (sep : Char) : List Char → List (List Char)
  | [] => [[]]
  | c :: r =>
    if c = sep then [] :: splitOnChar sep r
    else
      match splitOnChar sep r with
      | h :: t => (c :: h) :: t
      | [] => [[c]]

/-- Model of Python `str.lower()` (`Char.toLower`: identical on ASCII;
Python additionally lowers non-ASCII letters). -/
def lowerChars (l : List Char) : List Char := l.map Char.toLower

/-- Model of Python `str.lower()` at the string boundary. -/
def lowerStr (s : String) : String := ⟨lowerChars s.data⟩

/-- Model of `datetime.strptime(d, "%d.%m.%Y").date()`: one or two digit
day and month, one to four digit year, `.` separators, whole token
consumed, with calendar validation (month 1-12, day bounded by the month
length including leap Februaries). -/
def strptimeDMY (tok : List Char) : Option Date :=
  match splitOnChar '.' tok with
  | [ds, ms, ys] =>
    if ds.length = 0 ∨ 2 < ds.length ∨ ¬ (ds.all Char.isDigit) then none
    else if ms.length = 0 ∨ 2 < ms.length ∨ ¬ (ms.all Char.isDigit) then none
    else if ys.length = 0 ∨ 4 < ys.length ∨ ¬ (ys.all Char.isDigit) then none
    else
      let d := digitsToNat ds
      let m := digitsToNat ms
      let y := digitsToNat ys
      if 1 ≤ m ∧ m ≤ 12 ∧ 1 ≤ d ∧ d ≤ daysInMonth y m then some ⟨y, m, d⟩ else none
  | _ => none

/-- `parse_date` in `process_by_period` (agreement_processor.py lines
421-429): strip, take the first whitespace-separated token, parse it as
`dd.mm.yyyy`, `none` on empty input or parse failure. -/
def parse_date (v : String) : Option Date :=
  let s := pyStrip v.data
  if s.isEmpty then none
  else strptimeDMY (s.takeWhile (fun c => !c.isWhitespace))

/-! ## Case normalizer (`OpenAIProcessor.convert_to_genitive`)

The upstream chat call is abstracted as a stream of per-attempt outcomes:
`none` models a transport/API exception, `some reply` the returned
message content.  Python `str.lower()` is modelled by `String.toLower`
(identical on ASCII; Python additionally lowers non-ASCII letters). -/

/-- Reply cleanup in `convert_to_genitive` (openai_processor.py lines
75-88): strip, remove a surrounding markdown fence, and for multi-line
content take the first stripped line containing `|` (keeping the whole
content when no line has one). -/
def cleanReply (reply : List Char) : List Char :=
  let fence := ['`', '`', '`']
  let c0 := pyStrip reply
  let c1 :=
    if c0.take 3 = fence ∧ c0.drop (c0.length - 3) = fence then
      pyStrip ((c0.drop 3).take (c0.length - 6))
    else c0
  if c1.contains '\n' then
    match ((splitOnChar '\n' c1).map pyStrip).find? (fun l => l.contains '|') with
    | some l => l
    | none => c1
  else c1

/-- Validation and split of a single cleaned reply (openai_processor.py
lines 90-107): requires a `|`, splits once at the first `|`, strips both
parts, rejects an empty part and a case-insensitive echo of the input
pair; returns the two parts otherwise. -/
def parseGenitive (position fio reply : List Char) : Option (List Char × List Char) :=
  let content := cleanReply reply
  if !content.contains '|' then none
  else
    let p1 := pyStrip (content.takeWhile (fun c => c ≠ '|'))
    let p2 := pyStrip ((content.dropWhile (fun c => c ≠ '|')).drop 1)
    if p1.isEmpty ∨ p2.isEmpty then none
    else if lowerChars p1 = lowerChars position ∧ lowerChars p2 = lowerChars fio then none
    else some (p1, p2)

/-- Per-attempt outcome of `convert_to_genitive`: transport failure, or a
reply that then passes or fails `parseGenitive`. -/
def genitiveAttempt (position fio : List Char) (replies : Nat → Option (List Char))
    (k : Nat) : Option (List Char × List Char) :=
  match replies k with
  | none => none
  | some r => parseGenitive position fio r

/-- Retry loop of `convert_to_genitive` over the listed attempt indices. -/
def convertGo (position fio : List Char) (replies : Nat → Option (List Char)) :
    List Nat → Option (List Char × List Char)
  | [] => none
  | a :: rest =>
    match genitiveAttempt position fio replies a with
    | some pr => some pr
    | none => convertGo position fio replies rest

/-- `OpenAIProcessor.convert_to_genitive` with `max_retries = 3`
(openai_processor.py lines 34-121): up to three attempts, first success
returned, `none` models the final raised exception. -/
def convert_to_genitive (position fio : List Char) (replies : Nat → Option (List Char)) :
    Option (List Char × List Char) :=
  convertGo position fio replies (List.range 3)

/-- Failure condition of a single reply as the claim states it, read on
the cleaned content: no pipe, an empty part on either side of the pipe,
or a literal (case-sensitive) echo of the input pair. -/
def formatViolationClaim (position fio reply : List Char) : Prop :=
  let content := cleanReply reply
  let p1 := pyStrip (content.takeWhile (fun c => c ≠ '|'))
  let p2 := pyStrip ((content.dropWhile (fun c => c ≠ '|')).drop 1)
  ¬ content.contains '|' ∨ p1.isEmpty ∨ p2.isEmpty ∨ (p1 = position ∧ p2 = fio)

/-- Decidability of the claimed failure condition. -/
instance (position fio reply : List Char) : Decidable (formatViolationClaim position fio reply) := by
  unfold formatViolationClaim
  infer_instance

/-- Failure condition of a single reply as the code implements it: no
pipe, an empty part, or a case-insensitive echo of the input pair. -/
def formatViolationCond (position fio reply : List Char) : Prop :=
  let content := cleanReply reply
  let p1 := pyStrip (content.takeWhile (fun c => c ≠ '|'))
  let p2 := pyStrip ((content.dropWhile (fun c => c ≠ '|')).drop 1)
  ¬ content.contains '|' ∨ p1.isEmpty ∨ p2.isEmpty ∨
    (lowerChars p1 = lowerChars position ∧ lowerChars p2 = lowerChars fio)

/-- Decidability of the implemented failure condition. -/
instance (position fio reply : List Char) : Decidable (formatViolationCond position fio reply) := by
  unfold formatViolationCond
  infer_instance

/-! ## Orchestrator (`AgreementProcessor`)

External collaborators are abstracted as outcome streams indexed by a
per-collaborator call counter held in the state:
`resolve` is the outcome of one `contur_focus.get_head_by_inn` call
(`none` = raised exception), `normalize` the outcome of one
`convert_to_genitive` stage call (its internal retries included, `none` =
raised exception), `fill` the outcome of one template fill (`some path`
or raised exception), `send` the outcome of one Diadoc upload.  `now`
stands for the wall-clock timestamp written into registry rows.  The
interactive error callback is a list of decisions consumed in order; an
exhausted list models the absent-callback branches of the source. -/

/-- Counterparty record as passed around the orchestrator: the dict keys
`Название организации`, `ИНН`, `КПП`, `Дата изменения статуса` (missing
keys read as the empty string in the source). -/
structure Counterparty where
  name : String
  inn : String
  kpp : String
  statusDate : String
deriving DecidableEq

/-- Error-arbitration decision returned by the GUI callback
(main.py `handle_error` returns exactly these three strings). -/
inductive Decision
  | abort
  | retry
  | skip
deriving DecidableEq

/-- Log events tracked by the model (resolver attempt logging in
`AgreementProcessor._get_head_info`; other log lines are progress
messages the claims do not mention). -/
inductive LogEvt
  | resolveFail (attempt maxRetries : Nat)
  | resolveOk
deriving DecidableEq

/-- Arguments of one template-fill call (`fill_ip_template` /
`fill_ul_template`); the genitive fields are `Option` because the source
passes `None` when normalization failed without a callback decision. -/
inductive FillCall
  | ip (company ipName ipInn fio : String)
  | ul (company orgName inn kpp post fio : String) (postFixed fioFixed : Option String)
deriving DecidableEq

/-- The `db_data` dict handed to `DatabaseManager.add_counterparty` by
the orchestrator (supplier/quantity/EDO-id fields, constant in the
source, are omitted). -/
structure DbData where
  orgName : String
  inn : String
  kpp : String
  status : String
  statusDate : String
deriving DecidableEq

/-- Row persisted by `DatabaseManager.add_counterparty`: the SQLite
tables have only name/inn/kpp/status-date columns — the `Статус` value in
`db_data` is not stored. -/
structure StoredRow where
  orgName : String
  inn : String
  kpp : String
  statusDate : String
deriving DecidableEq

/-- Observable state threaded through a run: per-collaborator call
counters, arbitration-consultation count, resolver log, fill-call
arguments, the sequence of registry write requests, and the persisted
registry content. -/
structure St where
  resolveCalls : Nat := 0
  normCalls : Nat := 0
  fillCalls : Nat := 0
  sendCalls : Nat := 0
  arbCalls : Nat := 0
  logs : List LogEvt := []
  fillArgs : List FillCall := []
  writes : List DbData := []
  store : List StoredRow := []
deriving DecidableEq

/-- External collaborators of one run, as outcome streams. -/
structure Env where
  resolve : Nat → Option (String × String)
  normalize : Nat → Option (String × String)
  fill : Nat → Option String
  send : Nat → Bool
  now : String

/-- `DatabaseManager.add_counterparty` (database_manager.py lines
202-230): records the write request and persists name, cleaned inn,
cleaned kpp (empty stays empty) and status date.  The `ValueError` on an
empty cleaned inn is not modelled (no claim exercises it). -/
def addCounterparty (d : DbData) (st : St) : St :=
  { st with
    writes := st.writes ++ [d],
    store := st.store ++
      [{ orgName := d.orgName, inn := fix_inn_format d.inn,
         kpp := if d.kpp ≠ "" then fix_inn_format d.kpp else "",
         statusDate := d.statusDate }] }

/-- `DatabaseManager.check_inn_exists`: cleans the inn and looks it up
among the persisted inns. -/
def checkInnExists (inn : String) (store : List StoredRow) : Bool :=
  (store.map StoredRow.inn).contains (fix_inn_format inn)

/-- Attempt loop of `AgreementProcessor._get_head_info`
(agreement_processor.py lines 54-75) over the listed attempt numbers:
each attempt consumes one resolver call; a failure is logged with its
attempt count out of `maxR`; the first success is returned at once.
The source line `if attempt < max_retries - 1: continue` is a no-op and
has no counterpart. -/
def getHeadGo (env : Env) (maxR : Nat) : List Nat → St → Option (String × String) × St
  | [], st => (none, st)
  | a :: rest, st =>
    match env.resolve st.resolveCalls with
    | some pf =>
      (some pf, { st with resolveCalls := st.resolveCalls + 1, logs := st.logs ++ [.resolveOk] })
    | none =>
      getHeadGo env maxR rest
        { st with resolveCalls := st.resolveCalls + 1,
                  logs := st.logs ++ [.resolveFail (a + 1) maxR] }

/-- `AgreementProcessor._get_head_info` with the default
`max_retries = 3`: `none` after three failed attempts, no partial
result. -/
def getHeadInfo (env : Env) (st : St) : Option (String × String) × St :=
  getHeadGo env 3 (List.range 3) st

/-- `AgreementProcessor._send_to_diadoc` (agreement_processor.py lines
77-137).  A successful upload returns `true`; on an exception the
arbitration sink is consulted: `abort` fails the record, `retry`
re-enters this function only, `skip` logs a warning and returns `true`;
with no callback available the function returns `false`.  The document
path, sender company and recipient identifiers do not influence control
flow and are omitted. -/
def sendToDiadoc (env : Env) : St → List Decision → Bool × St × List Decision
  | st, ds =>
    if env.send st.sendCalls then
      (true, { st with sendCalls := st.sendCalls + 1 }, ds)
    else
      match ds with
      | [] => (false, { st with sendCalls := st.sendCalls + 1 }, [])
      | d :: rest =>
        let st1 : St :=
          { st with sendCalls := st.sendCalls + 1, arbCalls := st.arbCalls + 1 }
        match d with
        | .abort => (false, st1, rest)
        | .retry => sendToDiadoc env st1 rest
        | .skip => (true, st1, rest)

/-- `AgreementProcessor._process_ip` (agreement_processor.py lines
139-225): resolver (3 internal attempts) with arbitration on failure
(`retry` restarts the whole record, `skip` is terminal success); a
resolved title other than `ИП` fails the record immediately; template
fill with arbitration on failure (`skip` is not handled there and falls
through to failure); Diadoc send; registry write with status
`Отправлено через Диадок`. -/
def processIP (env : Env) (cp : Counterparty) (company : String) :
    St → List Decision → Bool × St × List Decision
  | st, ds =>
    match getHeadInfo env st with
    | (none, st1) =>
      match ds with
      | [] => (false, st1, [])
      | d :: rest =>
        let st2 : St := { st1 with arbCalls := st1.arbCalls + 1 }
        match d with
        | .abort => (false, st2, rest)
        | .retry => processIP env cp company st2 rest
        | .skip => (true, st2, rest)
    | (some (pos, fio), st1) =>
      if pos ≠ "ИП" then (false, st1, ds)
      else
        let ipName := "ИП " ++ fio
        let st2 : St :=
          { st1 with fillCalls := st1.fillCalls + 1,
                     fillArgs := st1.fillArgs ++ [FillCall.ip company ipName cp.inn fio] }
        match env.fill st1.fillCalls with
        | none =>
          match ds with
          | [] => (false, st2, [])
          | d :: rest =>
            let st3 : St := { st2 with arbCalls := st2.arbCalls + 1 }
            match d with
            | .abort => (false, st3, rest)
            | .retry => processIP env cp company st3 rest
            | .skip => (false, st3, rest)
        | some _path =>
          match sendToDiadoc env st2 ds with
          | (true, st3, ds1) =>
            (true,
             addCounterparty
               { orgName := ipName, inn := cp.inn, kpp := "",
                 status := "Отправлено через Диадок", statusDate := env.now } st3,
             ds1)
          | (false, st3, ds1) => (false, st3, ds1)

/-- Send-and-record tail of `AgreementProcessor._process_ul`
(agreement_processor.py lines 320-341): Diadoc send, then on success the
registry write with status `Отправлено через Диадок`. -/
def ulSendAndRecord (env : Env) (cp : Counterparty) (st : St) (ds : List Decision) :
    Bool × St × List Decision :=
  match sendToDiadoc env st ds with
  | (true, st1, ds1) =>
    (true,
     addCounterparty
       { orgName := cp.name, inn := cp.inn, kpp := cp.kpp,
         status := "Отправлено через Диадок", statusDate := env.now } st1,
     ds1)
  | (false, st1, ds1) => (false, st1, ds1)

/-- `AgreementProcessor._process_ul` (agreement_processor.py lines
227-341): resolver with arbitration as in `processIP`; a resolved `ИП`
title fails the record immediately; the case-normalization stage with
arbitration on failure (`retry` restarts the whole record, `skip`
continues with the lowercased nominative title and the unchanged name,
an absent callback continues with `None` values); template fill with
arbitration (`skip` unhandled, falls through to failure); then send and
registry write.  The fill block appears once per entry path, mirroring
the fall-through control flow of the source. -/
def processUL (env : Env) (cp : Counterparty) (company : String) :
    St → List Decision → Bool × St × List Decision
  | st, ds =>
    match getHeadInfo env st with
    | (none, st1) =>
      match ds with
      | [] => (false, st1, [])
      | d :: rest =>
        let st2 : St := { st1 with arbCalls := st1.arbCalls + 1 }
        match d with
        | .abort => (false, st2, rest)
        | .retry => processUL env cp company st2 rest
        | .skip => (true, st2, rest)
    | (some (pos, fio), st1) =>
      if pos = "ИП" then (false, st1, ds)
      else
        match env.normalize st1.normCalls with
        | some (pg, fg) =>
          let stN : St := { st1 with normCalls := st1.normCalls + 1 }
          let stF : St :=
            { stN with fillCalls := stN.fillCalls + 1,
                       fillArgs := stN.fillArgs ++
                         [FillCall.ul company cp.name cp.inn cp.kpp pos fio (some pg) (some fg)] }
          match env.fill stN.fillCalls with
          | none =>
            match ds with
            | [] => (false, stF, [])
            | d :: rest =>
              let stG : St := { stF with arbCalls := stF.arbCalls + 1 }
              match d with
              | .abort => (false, stG, rest)
              | .retry => processUL env cp company stG rest
              | .skip => (false, stG, rest)
          | some _path => ulSendAndRecord env cp stF ds
        | none =>
          let stN : St := { st1 with normCalls := st1.normCalls + 1 }
          match ds with
          | [] =>
            let stF : St :=
              { stN with fillCalls := stN.fillCalls + 1,
                         fillArgs := stN.fillArgs ++
                           [FillCall.ul company cp.name cp.inn cp.kpp pos fio none none] }
            match env.fill stN.fillCalls with
            | none => (false, stF, [])
            | some _path => ulSendAndRecord env cp stF []
          | d :: rest =>
            let stA : St := { stN with arbCalls := stN.arbCalls + 1 }
            match d with
            | .abort => (false, stA, rest)
            | .retry => processUL env cp company stA rest
            | .skip =>
              let stF : St :=
                { stA with fillCalls := stA.fillCalls + 1,
                           fillArgs := stA.fillArgs ++
                             [FillCall.ul company cp.name cp.inn cp.kpp pos fio
                               (some (lowerStr pos)) (some fio)] }
              match env.fill stA.fillCalls with
              | none =>
                match rest with
                | [] => (false, stF, [])
                | d2 :: rest2 =>
                  let stG : St := { stF with arbCalls := stF.arbCalls + 1 }
                  match d2 with
                  | .abort => (false, stG, rest2)
                  | .retry => processUL env cp company stG rest2
                  | .skip => (false, stG, rest2)
              | some _path => ulSendAndRecord env cp stF rest

/-- Per-record dispatch in `AgreementProcessor.process_counterparties`
(agreement_processor.py lines 378-386): tax-ID length 12 goes to the
sole-proprietor path, every other length to the organization path. -/
def processRecord (env : Env) (company : String) (cp : Counterparty) (st : St)
    (ds : List Decision) : Bool × St × List Decision :=
  if cp.inn.length = 12 then processIP env cp company st ds
  else processUL env cp company st ds

/-- Record loop of `process_counterparties` (lines 372-393): counts
successes and stops the whole batch at the first failed record. -/
def processLoop (env : Env) (company : String) :
    List Counterparty → St → List Decision → Nat → Nat × St × List Decision
  | [], st, ds, processed => (processed, st, ds)
  | cp :: rest, st, ds, processed =>
    match processRecord env company cp st ds with
    | (true, st1, ds1) => processLoop env company rest st1 ds1 (processed + 1)
    | (false, st1, ds1) => (processed, st1, ds1)

/-- Column cleanup applied by `get_new_counterparties` (database_manager.py
lines 277-279): inn cleaned, kpp cleaned only when non-blank. -/
def fixRowFull (r : Counterparty) : Counterparty :=
  { r with inn := fix_inn_format r.inn,
           kpp := if (⟨pyStrip r.kpp.data⟩ : String) ≠ "" then fix_inn_format r.kpp else "" }

/-- `DatabaseManager.get_new_counterparties` without a date filter (the
entry used by `process_counterparties`, database_manager.py lines
232-361): cleans the rows, keeps those with a non-empty inn that is
absent from the registry. -/
def getNewCounterparties (rows : List Counterparty) (store : List StoredRow) :
    List Counterparty :=
  (rows.map fixRowFull).filter (fun r => r.inn != "" && !(checkInnExists r.inn store))

/-- `AgreementProcessor.process_counterparties` (agreement_processor.py
lines 343-397): pulls the new counterparties, returns `(0, 0)` when
there are none, otherwise runs the record loop and returns
`(successes, total new)`. -/
def process_counterparties (env : Env) (company : String) (rows : List Counterparty)
    (st : St) (ds : List Decision) : (Nat × Nat) × St × List Decision :=
  let newCps := getNewCounterparties rows st.store
  if newCps.length = 0 then ((0, 0), st, ds)
  else
    match processLoop env company newCps st ds 0 with
    | (processed, st1, ds1) => ((processed, newCps.length), st1, ds1)

/-- Column cleanup in `process_by_period` (agreement_processor.py lines
411-413): inn and kpp both cleaned unconditionally. -/
def fixRowPeriod (r : Counterparty) : Counterparty :=
  { r with inn := fix_inn_format r.inn, kpp := fix_inn_format r.kpp }

/-- Python exceptions observable at the entry-point boundary. -/
inductive PyError
  | attributeError
deriving DecidableEq

/-- The attribute lookup `self.db_manager.columns` performed by
`process_by_period` (agreement_processor.py lines 408 and 419).
`DatabaseManager` defines `core_columns` and `full_columns` but no
`columns`, and nothing in the repository ever assigns one, so the lookup
fails: `none` models the raised `AttributeError`. -/
def dbManagerColumns : Option (List String) := none

/-- Registry reconciliation loop of `process_by_period` (lines 415-419),
parameterized by the column list the source reads from
`db_manager.columns` (line 419): every row with a non-empty inn absent
from the registry is inserted, and the dict handed to
`add_counterparty` carries exactly the keys in that column list, a
missing key reading as the empty string.  The row dicts of this model
have no `Статус` value, so that key contributes the empty string either
way.  This loop is unreachable in the program — the attribute lookup
fails first, see `dbManagerColumns` and `processByPeriod`. -/
def reconcile (cols : List String) (rows : List Counterparty) (st : St) : St :=
  rows.foldl
    (fun acc r =>
      if r.inn != "" && !(checkInnExists r.inn acc.store) then
        addCounterparty
          { orgName := if cols.contains "Название организации" then r.name else "",
            inn := if cols.contains "ИНН" then r.inn else "",
            kpp := if cols.contains "КПП" then r.kpp else "",
            status := "",
            statusDate := if cols.contains "Дата изменения статуса" then r.statusDate else "" }
          acc
      else acc)
    st

/-- One iteration of the period loop in `process_by_period` (lines
435-448): rows with an unparseable or out-of-range status date are
skipped; length 12 goes to the sole-proprietor path (no kpp, no date in
the dict), length 10 to the organization path, any other length is
counted as failed without any processing. -/
def periodStep (env : Env) (company : String) (dFrom dTo : Date)
    (acc : Nat × St × List Decision) (r : Counterparty) : Nat × St × List Decision :=
  match parse_date r.statusDate with
  | some dt =>
    if dateLe dFrom dt && dateLe dt dTo then
      let res :=
        if r.inn.length = 12 then
          processIP env { name := r.name, inn := r.inn, kpp := "", statusDate := "" }
            company acc.2.1 acc.2.2
        else if r.inn.length = 10 then
          processUL env { name := r.name, inn := r.inn, kpp := r.kpp, statusDate := "" }
            company acc.2.1 acc.2.2
        else (false, acc.2.1, acc.2.2)
      (if res.1 then acc.1 + 1 else acc.1, res.2.1, res.2.2)
    else acc
  | none => acc

/-- `AgreementProcessor.process_by_period` (agreement_processor.py lines
399-449).  After loading the CSV the source evaluates
`self.db_manager.columns` (line 408), an attribute `DatabaseManager`
does not define, so every call raises `AttributeError` there — before
reconciliation, date filtering or any row processing.  The `some`
branch below translates the remaining lines (409-449: column padding
and inn/kpp cleanup, registry reconciliation, then the period loop with
its single created-documents count and no batch-level break), which are
unreachable; the function's only observable behavior is the error.  The
caller-supplied period bounds are taken already parsed. -/
def processByPeriod (env : Env) (company : String) (rows : List Counterparty)
    (dFrom dTo : Date) (st : St) (ds : List Decision) :
    Except PyError (Nat × St × List Decision) :=
  match dbManagerColumns with
  | none => .error .attributeError
  | some cols =>
    let rows1 := rows.map fixRowPeriod
    let st1 := reconcile cols rows1 st
    .ok (rows1.foldl (periodStep env company dFrom dTo) (0, st1, ds))

end Edo

namespace Edo

lemma ws_false_of_isDigit {c : Char} (h : c.isDigit = true) : c.isWhitespace = false := by
  by_contra hw
  rw [Bool.not_eq_false] at hw
  simp only [Char.isWhitespace, Bool.or_eq_true, decide_eq_true_eq] at hw
  rcases hw with ((h1 | h1) | h1) | h1 <;> subst h1 <;> simp at h

lemma ne_of_isDigit {c a : Char} (h : c.isDigit = true) (ha : a.isDigit = false) : c ≠ a := by
  intro e
  rw [e, ha] at h
  exact Bool.false_ne_true h

lemma dropWhile_eq_self_of_forall (p : Char → Bool) (l : List Char)
    (h : ∀ c ∈ l, p c = false) : l.dropWhile p = l := by
  cases l with
  | nil => rfl
  | cons a t =>
    exact List.dropWhile_cons_of_neg (by simp [h a (List.mem_cons_self a t)])

lemma pyStrip_eq_of_no_ws {l : List Char} (h : ∀ c ∈ l, c.isWhitespace = false) :
    pyStrip l = l := by
  unfold pyStrip
  rw [dropWhile_eq_self_of_forall _ _ h,
      dropWhile_eq_self_of_forall _ _ (fun c hc => h c (List.mem_reverse.mp hc)),
      List.reverse_reverse]

lemma removeSpaces_eq_of_no_space {l : List Char} (h : ∀ c ∈ l, c ≠ ' ') :
    removeSpaces l = l := by
  unfold removeSpaces
  exact List.filter_eq_self.mpr (fun c hc => by simpa using h c hc)

lemma digitChar_isDigit {n : Nat} (h : n < 10) : (digitChar n).isDigit = true := by
  interval_cases n <;> decide

lemma natDecDigitsAux_spec : ∀ fuel n, n < fuel →
    (∀ c ∈ natDecDigitsAux fuel n, c.isDigit = true) ∧ natDecDigitsAux fuel n ≠ [] := by
  intro fuel
  induction fuel with
  | zero => intro n h; omega
  | succ f ih =>
    intro n h
    unfold natDecDigitsAux
    by_cases h10 : n < 10
    · rw [if_pos h10]
      exact ⟨fun c hc => by rw [List.mem_singleton.mp hc]; exact digitChar_isDigit h10, by simp⟩
    · rw [if_neg h10]
      have hdiv : n / 10 < f := by
        have := Nat.div_lt_self (show 0 < n by omega) (show 1 < 10 by omega)
        omega
      obtain ⟨ihd, ihn⟩ := ih (n / 10) hdiv
      constructor
      · intro c hc
        rcases List.mem_append.mp hc with hc1 | hc1
        · exact ihd c hc1
        · rw [List.mem_singleton.mp hc1]
          exact digitChar_isDigit (Nat.mod_lt _ (by omega))
      · simp

lemma natDecDigits_all_digit (n : Nat) : ∀ c ∈ natDecDigits n, c.isDigit = true :=
  (natDecDigitsAux_spec (n + 1) n (Nat.lt_succ_self n)).1

lemma natDecDigits_ne_nil (n : Nat) : natDecDigits n ≠ [] :=
  (natDecDigitsAux_spec (n + 1) n (Nat.lt_succ_self n)).2

lemma mem_of_contains_true {l : List Char} {a : Char} (h : l.contains a = true) : a ∈ l := by
  simpa using h

lemma fixInnChars_of_digits (l : List Char) (h : ∀ c ∈ l, c.isDigit = true) (hne : l ≠ []) :
    fixInnChars l = l := by
  unfold fixInnChars
  rw [pyStrip_eq_of_no_ws (fun c hc => ws_false_of_isDigit (h c hc)),
      removeSpaces_eq_of_no_space (fun c hc => ne_of_isDigit (h c hc) (by decide))]
  rw [if_neg (by simpa [List.isEmpty_iff] using hne)]
  rw [if_neg (by
    rintro (hE | hE) <;>
      exact absurd (h _ (mem_of_contains_true hE)) (by decide))]
  rw [if_neg (by
    rintro ⟨h2, hdrop⟩
    have : '.' ∈ l.drop (l.length - 2) := by rw [hdrop]; simp
    exact absurd (h _ (List.mem_of_mem_drop this)) (by decide))]
  exact List.filter_eq_self.mpr h

end Edo

namespace Edo

lemma parseSign_of_ne {c : Char} {r : List Char} (h1 : c ≠ '+') (h2 : c ≠ '-') :
    parseSign (c :: r) = (false, c :: r) := by
  simp only [parseSign]
  rw [if_neg h1, if_neg h2]

lemma takeWhile_digits_stop {F rest : List Char} {c : Char}
    (hF : ∀ x ∈ F, x.isDigit = true) (hc : c.isDigit = false) :
    (F ++ c :: rest).takeWhile Char.isDigit = F := by
  rw [List.takeWhile_append_of_pos hF, List.takeWhile_cons_of_neg (by simp [hc]), List.append_nil]

lemma dropWhile_digits_stop {F rest : List Char} {c : Char}
    (hF : ∀ x ∈ F, x.isDigit = true) (hc : c.isDigit = false) :
    (F ++ c :: rest).dropWhile Char.isDigit = c :: rest := by
  rw [List.dropWhile_append_of_pos hF, List.dropWhile_cons_of_neg (by simp [hc])]

lemma parseExp_eplus {X : List Char} (hX : X ≠ []) (hXdig : ∀ c ∈ X, c.isDigit = true) :
    parseExp ('E' :: '+' :: X) = some (digitsToNat X : Int) := by
  have h1 : parseSign ('+' :: X) = (false, X) := by simp [parseSign]
  simp only [parseExp, if_pos (Or.inr rfl), h1]
  rw [List.takeWhile_eq_self_iff.mpr hXdig]
  rw [List.dropWhile_eq_nil_iff.mpr hXdig]
  have hXe : X.isEmpty = false := by simpa [List.isEmpty_iff] using hX
  rw [if_pos (show ('E' = 'e') ∨ True from Or.inr trivial)]
  rw [if_neg (by simp [hXe])]
  simp

end Edo

namespace Edo

lemma exists_cons_of_ne_nil {l : List Char} (h : l ≠ []) : ∃ c t, l = c :: t := by
  cases l with
  | nil => exact absurd rfl h
  | cons a t => exact ⟨a, t, rfl⟩

lemma pyFloatParts_sci {I F X : List Char} (hI : I ≠ [])
    (hIdig : ∀ c ∈ I, c.isDigit = true) (hFdig : ∀ c ∈ F, c.isDigit = true)
    (hX : X ≠ []) (hXdig : ∀ c ∈ X, c.isDigit = true) :
    pyFloatParts (I ++ ('.' :: (F ++ ('E' :: ('+' :: X))))) =
      some (false, I, F, (digitsToNat X : Int)) := by
  obtain ⟨c0, I2, rfl⟩ := exists_cons_of_ne_nil hI
  have hc0d := hIdig c0 (by simp)
  have hps : parseSign ((c0 :: I2) ++ ('.' :: (F ++ ('E' :: ('+' :: X))))) =
      (false, (c0 :: I2) ++ ('.' :: (F ++ ('E' :: ('+' :: X))))) := by
    rw [List.cons_append]
    exact parseSign_of_ne (ne_of_isDigit hc0d (by decide)) (ne_of_isDigit hc0d (by decide))
  simp only [pyFloatParts, hps]
  rw [takeWhile_digits_stop hIdig (by decide), dropWhile_digits_stop hIdig (by decide)]
  simp only
  rw [if_pos trivial]
  rw [takeWhile_digits_stop hFdig (by decide), dropWhile_digits_stop hFdig (by decide)]
  rw [if_neg (by simp)]
  rw [parseExp_eplus hX hXdig]

lemma pyFloatInt_sci {I F X : List Char} (hI : I ≠ [])
    (hIdig : ∀ c ∈ I, c.isDigit = true) (hFdig : ∀ c ∈ F, c.isDigit = true)
    (hX : X ≠ []) (hXdig : ∀ c ∈ X, c.isDigit = true)
    (hle : F.length ≤ digitsToNat X) :
    pyFloatInt (I ++ ('.' :: (F ++ ('E' :: ('+' :: X))))) =
      some ((digitsToNat (I ++ F) * 10 ^ (digitsToNat X - F.length) : Nat) : Int) := by
  unfold pyFloatInt
  rw [pyFloatParts_sci hI hIdig hFdig hX hXdig]
  simp only
  rw [if_pos (Int.sub_nonneg.mpr (by exact_mod_cast hle))]
  rw [Int.toNat_sub]
  simp

end Edo

namespace Edo

lemma sci_mem_cases {I F X : List Char} (hIdig : ∀ c ∈ I, c.isDigit = true)
    (hFdig : ∀ c ∈ F, c.isDigit = true) (hXdig : ∀ c ∈ X, c.isDigit = true) :
    ∀ c ∈ (I ++ ('.' :: (F ++ ('E' :: ('+' :: X))))),
      c.isDigit = true ∨ c = '.' ∨ c = 'E' ∨ c = '+' := by
  intro c hc
  rcases List.mem_append.mp hc with h | h
  · exact Or.inl (hIdig c h)
  · rcases List.mem_cons.mp h with h | h
    · exact Or.inr (Or.inl h)
    · rcases List.mem_append.mp h with h | h
      · exact Or.inl (hFdig c h)
      · rcases List.mem_cons.mp h with h | h
        · exact Or.inr (Or.inr (Or.inl h))
        · rcases List.mem_cons.mp h with h | h
          · exact Or.inr (Or.inr (Or.inr h))
          · exact Or.inl (hXdig c h)

lemma fixInnChars_sci {I F X : List Char} (hI : I ≠ [])
    (hIdig : ∀ c ∈ I, c.isDigit = true) (hFdig : ∀ c ∈ F, c.isDigit = true)
    (hX : X ≠ []) (hXdig : ∀ c ∈ X, c.isDigit = true)
    (hle : F.length ≤ digitsToNat X) :
    fixInnChars (I ++ ('.' :: (F ++ ('E' :: ('+' :: X))))) =
      natDecDigits (digitsToNat (I ++ F) * 10 ^ (digitsToNat X - F.length)) := by
  have hmem := sci_mem_cases hIdig hFdig hXdig
  have hnws : ∀ c ∈ (I ++ ('.' :: (F ++ ('E' :: ('+' :: X))))), c.isWhitespace = false := by
    intro c hc
    rcases hmem c hc with h | h | h | h
    · exact ws_false_of_isDigit h
    all_goals subst h; decide
  have hnsp : ∀ c ∈ (I ++ ('.' :: (F ++ ('E' :: ('+' :: X))))), c ≠ ' ' := by
    intro c hc
    rcases hmem c hc with h | h | h | h
    · exact ne_of_isDigit h (by decide)
    all_goals subst h; decide
  unfold fixInnChars
  rw [pyStrip_eq_of_no_ws hnws, removeSpaces_eq_of_no_space hnsp]
  rw [if_neg (by simp)]
  rw [if_pos (Or.inl (List.elem_eq_true_of_mem (by simp)))]
  have hmap : ((I ++ ('.' :: (F ++ ('E' :: ('+' :: X))))).map
      (fun c => if c = ',' then '.' else c)) = (I ++ ('.' :: (F ++ ('E' :: ('+' :: X))))) := by
    refine (List.map_congr_left ?_).trans (List.map_id _)
    intro c hc
    have hne : c ≠ ',' := by
      rcases hmem c hc with h | h | h | h
      · exact ne_of_isDigit h (by decide)
      all_goals subst h; decide
    simp [hne]
  rw [hmap]
  simp only [pyFloatInt_sci hI hIdig hFdig hX hXdig hle]
  simp only [intDecString]
  rw [if_neg (by simp)]
  simp
  norm_cast

end Edo

namespace Edo

lemma fixInnChars_dec {D : List Char} (_hD : D ≠ []) (hDdig : ∀ c ∈ D, c.isDigit = true) :
    fixInnChars (D ++ ['.', '0']) = D := by
  have hmem : ∀ c ∈ D ++ ['.', '0'], c.isDigit = true ∨ c = '.' := by
    intro c hc
    rcases List.mem_append.mp hc with h | h
    · exact Or.inl (hDdig c h)
    · rcases List.mem_cons.mp h with h | h
      · exact Or.inr h
      · rw [List.mem_singleton.mp h]; exact Or.inl (by decide)
  have hnws : ∀ c ∈ D ++ ['.', '0'], c.isWhitespace = false := by
    intro c hc
    rcases hmem c hc with h | h
    · exact ws_false_of_isDigit h
    · subst h; decide
  have hnsp : ∀ c ∈ D ++ ['.', '0'], c ≠ ' ' := by
    intro c hc
    rcases hmem c hc with h | h
    · exact ne_of_isDigit h (by decide)
    · subst h; decide
  unfold fixInnChars
  rw [pyStrip_eq_of_no_ws hnws, removeSpaces_eq_of_no_space hnsp]
  rw [if_neg (by simp)]
  rw [if_neg (by
    rintro (hE | hE) <;>
    · rcases hmem _ (mem_of_contains_true hE) with h | h
      · exact absurd h (by decide)
      · exact absurd h (by decide))]
  have hlen : (D ++ ['.', '0']).length = D.length + 2 := by simp
  rw [if_pos ⟨by omega, by
    rw [hlen, show D.length + 2 - 2 = D.length from by omega]
    exact List.drop_left D ['.', '0']⟩]
  rw [hlen, show D.length + 2 - 2 = D.length from by omega, List.take_left]
  exact List.filter_eq_self.mpr hDdig

end Edo

namespace Edo

lemma pyStrip_pad {W1 D W2 : List Char} (hW1 : ∀ c ∈ W1, c.isWhitespace = true)
    (hW2 : ∀ c ∈ W2, c.isWhitespace = true) (hDnws : ∀ c ∈ D, c.isWhitespace = false)
    (hne : D ≠ []) : pyStrip (W1 ++ (D ++ W2)) = D := by
  obtain ⟨d0, D2, rfl⟩ := exists_cons_of_ne_nil hne
  unfold pyStrip
  rw [List.dropWhile_append_of_pos hW1, List.cons_append,
      List.dropWhile_cons_of_neg (by simp [hDnws d0 (by simp)])]
  rw [show (d0 :: (D2 ++ W2)).reverse = W2.reverse ++ (D2.reverse ++ [d0]) by
    simp [List.reverse_cons]]
  rw [List.dropWhile_append_of_pos (fun c hc => hW2 c (List.mem_reverse.mp hc))]
  rw [dropWhile_eq_self_of_forall _ _ (fun c hc => by
    rcases List.mem_append.mp hc with h | h
    · exact hDnws c (List.mem_cons_of_mem d0 (List.mem_reverse.mp h))
    · rw [List.mem_singleton.mp h]; exact hDnws d0 (by simp))]
  simp

lemma fixInnChars_ws {W1 D W2 : List Char} (hW1 : ∀ c ∈ W1, c.isWhitespace = true)
    (hW2 : ∀ c ∈ W2, c.isWhitespace = true) (hD : D ≠ [])
    (hDdig : ∀ c ∈ D, c.isDigit = true) :
    fixInnChars (W1 ++ (D ++ W2)) = D := by
  unfold fixInnChars
  rw [pyStrip_pad hW1 hW2 (fun c hc => ws_false_of_isDigit (hDdig c hc)) hD,
      removeSpaces_eq_of_no_space (fun c hc => ne_of_isDigit (hDdig c hc) (by decide))]
  rw [if_neg (by simpa [List.isEmpty_iff] using hD)]
  rw [if_neg (by
    rintro (hE | hE) <;> exact absurd (hDdig _ (mem_of_contains_true hE)) (by decide))]
  rw [if_neg (by
    rintro ⟨h2, hdrop⟩
    have : '.' ∈ D.drop (D.length - 2) := by rw [hdrop]; simp
    exact absurd (hDdig _ (List.mem_of_mem_drop this)) (by decide))]
  exact List.filter_eq_self.mpr hDdig

end Edo

namespace Edo

/-- C9: for tax-ID strings in scientific-notation form (`I.F E+X` with
integer value), decimal form (`digits.0`), or whitespace-padded form, the
cleanup `_fix_inn_format` produces the digit-only integer form of the
input, and on each such input the cleanup is idempotent.  The
`n < 2 ^ 53` bound marks the domain on which the exact-rational model of
`int(float(...))` coincides with CPython (all tax IDs lie far below
it). -/
theorem inn_cleanup_normalizes :
    (∀ (s : String) (I F X : List Char) (n : Nat),
      s.data = I ++ ('.' :: (F ++ ('E' :: ('+' :: X)))) →
      I ≠ [] → (∀ c ∈ I, c.isDigit = true) →
      F ≠ [] → (∀ c ∈ F, c.isDigit = true) →
      X ≠ [] → (∀ c ∈ X, c.isDigit = true) →
      F.length ≤ digitsToNat X →
      n = digitsToNat (I ++ F) * 10 ^ (digitsToNat X - F.length) →
      n < 2 ^ 53 →
      fix_inn_format s = ⟨natDecDigits n⟩ ∧
      (∀ c ∈ (fix_inn_format s).data, c.isDigit = true) ∧
      fix_inn_format (fix_inn_format s) = fix_inn_format s) ∧
    (∀ (s : String) (D : List Char),
      s.data = D ++ ['.', '0'] → D ≠ [] → (∀ c ∈ D, c.isDigit = true) →
      fix_inn_format s = ⟨D⟩ ∧ (∀ c ∈ (fix_inn_format s).data, c.isDigit = true) ∧
      fix_inn_format (fix_inn_format s) = fix_inn_format s) ∧
    (∀ (s : String) (W1 D W2 : List Char),
      s.data = W1 ++ (D ++ W2) →
      (∀ c ∈ W1, c.isWhitespace = true) → (∀ c ∈ W2, c.isWhitespace = true) →
      D ≠ [] → (∀ c ∈ D, c.isDigit = true) →
      fix_inn_format s = ⟨D⟩ ∧ (∀ c ∈ (fix_inn_format s).data, c.isDigit = true) ∧
      fix_inn_format (fix_inn_format s) = fix_inn_format s) := by
  refine ⟨?_, ?_, ?_⟩
  · intro s I F X n hdata hI hIdig hF hFdig hX hXdig hle hn _hbound
    subst hn
    have h1 : fix_inn_format s =
        ⟨natDecDigits (digitsToNat (I ++ F) * 10 ^ (digitsToNat X - F.length))⟩ := by
      unfold fix_inn_format
      rw [hdata, fixInnChars_sci hI hIdig hFdig hX hXdig hle]
    refine ⟨h1, ?_, ?_⟩
    · rw [h1]
      exact natDecDigits_all_digit _
    · rw [h1]
      unfold fix_inn_format
      exact congrArg String.mk
        (fixInnChars_of_digits _ (natDecDigits_all_digit _) (natDecDigits_ne_nil _))
  · intro s D hdata hD hDdig
    have h1 : fix_inn_format s = ⟨D⟩ := by
      unfold fix_inn_format
      rw [hdata, fixInnChars_dec hD hDdig]
    refine ⟨h1, ?_, ?_⟩
    · rw [h1]; exact hDdig
    · rw [h1]
      unfold fix_inn_format
      exact congrArg String.mk (fixInnChars_of_digits _ hDdig hD)
  · intro s W1 D W2 hdata hW1 hW2 hD hDdig
    have h1 : fix_inn_format s = ⟨D⟩ := by
      unfold fix_inn_format
      rw [hdata, fixInnChars_ws hW1 hW2 hD hDdig]
    refine ⟨h1, ?_, ?_⟩
    · rw [h1]; exact hDdig
    · rw [h1]
      unfold fix_inn_format
      exact congrArg String.mk (fixInnChars_of_digits _ hDdig hD)

theorem inn_cleanup_normalizes_witness :
    fix_inn_format "7.84806E+11" = "784806000000" ∧
    fix_inn_format (fix_inn_format "7.84806E+11") = fix_inn_format "7.84806E+11" ∧
    fix_inn_format "1234567890.0" = "1234567890" ∧
    fix_inn_format " 123456789012 " = "123456789012" := by
  obtain ⟨hsci, hdec, hws⟩ := inn_cleanup_normalizes
  have h1 := hsci "7.84806E+11" ['7'] ['8', '4', '8', '0', '6'] ['1', '1'] 784806000000
    (by decide) (by decide) (by decide) (by decide) (by decide) (by decide) (by decide)
    (by decide) (by decide) (by decide)
  have h2 := hdec "1234567890.0" ['1', '2', '3', '4', '5', '6', '7', '8', '9', '0']
    (by decide) (by decide) (by decide)
  have h3 := hws " 123456789012 " [' ']
    ['1', '2', '3', '4', '5', '6', '7', '8', '9', '0', '1', '2'] [' ']
    (by decide) (by decide) (by decide) (by decide) (by decide)
  exact ⟨h1.1.trans (by decide), h1.2.2, h2.1.trans (by decide), h3.1.trans (by decide)⟩

end Edo

namespace Edo

/-! ## Unfolding lemmas for the orchestrator -/

lemma range3_eq : List.range 3 = [0, 1, 2] := rfl

lemma getHeadInfo_ok (env : Env) (st : St) (pf : String × String)
    (h : env.resolve st.resolveCalls = some pf) :
    getHeadInfo env st =
      (some pf,
       { st with resolveCalls := st.resolveCalls + 1,
                 logs := st.logs ++ [.resolveOk] }) := by
  unfold getHeadInfo
  rw [range3_eq]
  unfold getHeadGo
  rw [h]

lemma getHeadInfo_fail (env : Env) (st : St)
    (h0 : env.resolve st.resolveCalls = none)
    (h1 : env.resolve (st.resolveCalls + 1) = none)
    (h2 : env.resolve (st.resolveCalls + 2) = none) :
    getHeadInfo env st =
      (none,
       { st with resolveCalls := st.resolveCalls + 3,
                 logs := st.logs ++ [.resolveFail 1 3, .resolveFail 2 3, .resolveFail 3 3] }) := by
  unfold getHeadInfo
  rw [range3_eq]
  unfold getHeadGo
  rw [h0]
  unfold getHeadGo
  simp only
  rw [h1]
  unfold getHeadGo
  simp only
  rw [show st.resolveCalls + 1 + 1 = st.resolveCalls + 2 from rfl, h2]
  unfold getHeadGo
  simp [List.append_assoc, Nat.add_assoc]

lemma getHeadInfo_fail_then_ok (env : Env) (st : St) (pf : String × String)
    (h0 : env.resolve st.resolveCalls = none)
    (h1 : env.resolve (st.resolveCalls + 1) = some pf) :
    getHeadInfo env st =
      (some pf,
       { st with resolveCalls := st.resolveCalls + 2,
                 logs := st.logs ++ [.resolveFail 1 3, .resolveOk] }) := by
  unfold getHeadInfo
  rw [range3_eq]
  unfold getHeadGo
  rw [h0]
  unfold getHeadGo
  simp only
  rw [h1]
  simp [List.append_assoc, Nat.add_assoc]

/-- C4: the representative-resolver call inside a record is retried
automatically up to exactly 3 attempts; each failed attempt is logged
with its attempt count out of 3; after the third failure the stage
yields `none` (no partial result) and the failure is then offered to the
arbitration sink; an attempt that succeeds returns at once. -/
theorem resolver_retry_bound :
    (∀ (env : Env) (st : St),
      env.resolve st.resolveCalls = none →
      env.resolve (st.resolveCalls + 1) = none →
      env.resolve (st.resolveCalls + 2) = none →
      getHeadInfo env st =
        (none,
         { st with resolveCalls := st.resolveCalls + 3,
                   logs := st.logs ++ [.resolveFail 1 3, .resolveFail 2 3, .resolveFail 3 3] })) ∧
    (∀ (env : Env) (st : St) (pf : String × String),
      env.resolve st.resolveCalls = some pf →
      getHeadInfo env st =
        (some pf,
         { st with resolveCalls := st.resolveCalls + 1, logs := st.logs ++ [.resolveOk] })) ∧
    (∀ (env : Env) (st : St) (pf : String × String),
      env.resolve st.resolveCalls = none →
      env.resolve (st.resolveCalls + 1) = some pf →
      getHeadInfo env st =
        (some pf,
         { st with resolveCalls := st.resolveCalls + 2,
                   logs := st.logs ++ [.resolveFail 1 3, .resolveOk] })) ∧
    (∀ (env : Env) (cp : Counterparty) (company : String) (st : St) (rest : List Decision),
      env.resolve st.resolveCalls = none →
      env.resolve (st.resolveCalls + 1) = none →
      env.resolve (st.resolveCalls + 2) = none →
      processIP env cp company st (.abort :: rest) =
        (false,
         { st with resolveCalls := st.resolveCalls + 3,
                   arbCalls := st.arbCalls + 1,
                   logs := st.logs ++ [.resolveFail 1 3, .resolveFail 2 3, .resolveFail 3 3] },
         rest)) := by
  refine ⟨getHeadInfo_fail, getHeadInfo_ok, getHeadInfo_fail_then_ok, ?_⟩
  intro env cp company st rest h0 h1 h2
  rw [processIP, getHeadInfo_fail env st h0 h1 h2]

end Edo

namespace Edo

/-! ## Concrete fixtures used by witnesses and counterexamples -/

/-- Environment with every collaborator failing. -/
def envDown : Env :=
  { resolve := fun _ => none, normalize := fun _ => none,
    fill := fun _ => none, send := fun _ => false, now := "01.01.2025 10:00" }

/-- Environment with every collaborator succeeding, resolving an
organization head. -/
def envUp : Env :=
  { resolve := fun _ => some ("Директор", "Иванов Иван"),
    normalize := fun _ => some ("Директора", "Иванова Ивана"),
    fill := fun _ => some "path.docx", send := fun _ => true, now := "01.01.2025 10:00" }

/-- A counterparty with a 12-character tax ID (sole-proprietor shape). -/
def cp12 : Counterparty :=
  { name := "ИП Иванов", inn := "123456789012", kpp := "", statusDate := "" }

/-- A counterparty with a 10-character tax ID (organization shape). -/
def cp10 : Counterparty :=
  { name := "ООО Ромашка", inn := "1234567890", kpp := "770101001", statusDate := "" }

/-- A counterparty with an 11-character tax ID (invalid shape). -/
def cp11 : Counterparty :=
  { name := "Org11", inn := "12345678901", kpp := "", statusDate := "" }

theorem resolver_retry_bound_witness :
    getHeadInfo envDown { } =
      (none,
       { resolveCalls := 3,
         logs := [.resolveFail 1 3, .resolveFail 2 3, .resolveFail 3 3] }) ∧
    processIP envDown cp12 "КАДИС" { } [.abort] =
      (false,
       { resolveCalls := 3, arbCalls := 1,
         logs := [.resolveFail 1 3, .resolveFail 2 3, .resolveFail 3 3] },
       []) := by
  refine ⟨(resolver_retry_bound.1 envDown { } rfl rfl rfl).trans (by decide), ?_⟩
  exact (resolver_retry_bound.2.2.2 envDown cp12 "КАДИС" { } [] rfl rfl rfl).trans (by decide)

/-- C3 counterexample: on a sole-proprietor-shaped record whose resolved
title is not the sole-proprietor sentinel, the record fails immediately
even though the operator has a `skip` decision queued: the arbitration
sink is never consulted (`arbCalls` stays 0) and the decision is left
unconsumed — contradicting the claim that the mismatch is offered to the
error-arbitration sink and may be skipped. -/
theorem kind_mismatch_claim_counterexample :
    (processIP envUp cp12 "КАДИС" { } [.skip]).1 = false ∧
    (processIP envUp cp12 "КАДИС" { } [.skip]).2.1.arbCalls = 0 ∧
    (processIP envUp cp12 "КАДИС" { } [.skip]).2.2 = [.skip] := by
  refine ⟨by decide, by decide, by decide⟩

/-- C3 amended: a representative-kind mismatch (sole-proprietor branch
resolving to a non-`ИП` title, or organization branch resolving to `ИП`)
is a hard failure for the record, not retried automatically, and NOT
offered to the error-arbitration sink: the record fails at once with the
decision queue untouched and no arbitration consultation. -/
theorem kind_mismatch_hard_failure :
    (∀ (env : Env) (cp : Counterparty) (company : String) (st : St) (ds : List Decision)
       (p f : String),
      env.resolve st.resolveCalls = some (p, f) → p ≠ "ИП" →
      processIP env cp company st ds =
        (false,
         { st with resolveCalls := st.resolveCalls + 1, logs := st.logs ++ [.resolveOk] },
         ds)) ∧
    (∀ (env : Env) (cp : Counterparty) (company : String) (st : St) (ds : List Decision)
       (f : String),
      env.resolve st.resolveCalls = some ("ИП", f) →
      processUL env cp company st ds =
        (false,
         { st with resolveCalls := st.resolveCalls + 1, logs := st.logs ++ [.resolveOk] },
         ds)) := by
  constructor
  · intro env cp company st ds p f hres hp
    rw [processIP, getHeadInfo_ok env st (p, f) hres]
    simp [hp]
  · intro env cp company st ds f hres
    rw [processUL, getHeadInfo_ok env st ("ИП", f) hres]
    simp

theorem kind_mismatch_hard_failure_witness :
    processIP envUp cp12 "КАДИС" { } [.skip] =
      (false, { resolveCalls := 1, logs := [.resolveOk] }, [.skip]) := by
  exact (kind_mismatch_hard_failure.1 envUp cp12 "КАДИС" { } [.skip]
    "Директор" "Иванов Иван" rfl (by decide)).trans (by decide)

end Edo

namespace Edo

/-- Environment where the resolver succeeds with an organization head
(ASCII strings) but the case normalizer, filler and transport fail. -/
def envNormDown : Env :=
  { resolve := fun _ => some ("Director", "Ivanov Ivan"),
    normalize := fun _ => none,
    fill := fun _ => some "path.docx", send := fun _ => true, now := "01.01.2025 10:00" }

/-- Environment where resolution and normalization succeed but the
template fill and the transport fail. -/
def envFillDown : Env :=
  { resolve := fun _ => some ("Директор", "Иванов Иван"),
    normalize := fun _ => some ("Директора", "Иванова Ивана"),
    fill := fun _ => none, send := fun _ => false, now := "01.01.2025 10:00" }

/-- Environment where everything up to transmission succeeds and the
transport fails. -/
def envSendDown : Env :=
  { resolve := fun _ => some ("Директор", "Иванов Иван"),
    normalize := fun _ => some ("Директора", "Иванова Ивана"),
    fill := fun _ => some "path.docx", send := fun _ => false, now := "01.01.2025 10:00" }

/-- C6: failures of the case normalizer, the document filler and the
transmission client are never auto-retried by the orchestrator: on the
first failure of each stage the arbitration sink is consulted at once —
the failing stage was invoked exactly once and no other stage ran in
between (witness the `+ 1` call counters against an `abort` decision). -/
theorem stage_failures_not_autoretried :
    (∀ (env : Env) (cp : Counterparty) (company : String) (st : St) (rest : List Decision)
       (p f : String),
      env.resolve st.resolveCalls = some (p, f) → p ≠ "ИП" →
      env.normalize st.normCalls = none →
      processUL env cp company st (.abort :: rest) =
        (false,
         { st with resolveCalls := st.resolveCalls + 1, normCalls := st.normCalls + 1,
                   arbCalls := st.arbCalls + 1, logs := st.logs ++ [.resolveOk] },
         rest)) ∧
    (∀ (env : Env) (cp : Counterparty) (company : String) (st : St) (rest : List Decision)
       (p f pg fg : String),
      env.resolve st.resolveCalls = some (p, f) → p ≠ "ИП" →
      env.normalize st.normCalls = some (pg, fg) →
      env.fill st.fillCalls = none →
      processUL env cp company st (.abort :: rest) =
        (false,
         { st with resolveCalls := st.resolveCalls + 1, normCalls := st.normCalls + 1,
                   fillCalls := st.fillCalls + 1, arbCalls := st.arbCalls + 1,
                   logs := st.logs ++ [.resolveOk],
                   fillArgs := st.fillArgs ++
                     [.ul company cp.name cp.inn cp.kpp p f (some pg) (some fg)] },
         rest)) ∧
    (∀ (env : Env) (cp : Counterparty) (company : String) (st : St) (rest : List Decision)
       (f : String),
      env.resolve st.resolveCalls = some ("ИП", f) →
      env.fill st.fillCalls = none →
      processIP env cp company st (.abort :: rest) =
        (false,
         { st with resolveCalls := st.resolveCalls + 1, fillCalls := st.fillCalls + 1,
                   arbCalls := st.arbCalls + 1, logs := st.logs ++ [.resolveOk],
                   fillArgs := st.fillArgs ++ [.ip company ("ИП " ++ f) cp.inn f] },
         rest)) ∧
    (∀ (env : Env) (st : St) (rest : List Decision),
      env.send st.sendCalls = false →
      sendToDiadoc env st (.abort :: rest) =
        (false, { st with sendCalls := st.sendCalls + 1, arbCalls := st.arbCalls + 1 }, rest)) := by
  refine ⟨?_, ?_, ?_, ?_⟩
  · intro env cp company st rest p f hres hp hnorm
    rw [processUL, getHeadInfo_ok env st (p, f) hres]
    simp [hp, hnorm]
  · intro env cp company st rest p f pg fg hres hp hnorm hfill
    rw [processUL, getHeadInfo_ok env st (p, f) hres]
    simp [hp, hnorm, hfill]
  · intro env cp company st rest f hres hfill
    rw [processIP, getHeadInfo_ok env st ("ИП", f) hres]
    simp [hfill]
  · intro env st rest hsend
    rw [sendToDiadoc]
    simp [hsend]

theorem stage_failures_not_autoretried_witness :
    processUL envNormDown cp10 "КАДИС" { } [.abort] =
      (false, { resolveCalls := 1, normCalls := 1, arbCalls := 1, logs := [.resolveOk] }, []) ∧
    processUL envFillDown cp10 "КАДИС" { } [.abort] =
      (false,
       { resolveCalls := 1, normCalls := 1, fillCalls := 1, arbCalls := 1,
         logs := [.resolveOk],
         fillArgs := [.ul "КАДИС" "ООО Ромашка" "1234567890" "770101001"
           "Директор" "Иванов Иван" (some "Директора") (some "Иванова Ивана")] },
       []) ∧
    sendToDiadoc envDown { } [.abort] = (false, { sendCalls := 1, arbCalls := 1 }, []) := by
  refine ⟨?_, ?_, ?_⟩
  · exact (stage_failures_not_autoretried.1 envNormDown cp10 "КАДИС" { } []
      "Director" "Ivanov Ivan" rfl (by decide) rfl).trans (by decide)
  · exact (stage_failures_not_autoretried.2.1 envFillDown cp10 "КАДИС" { } []
      "Директор" "Иванов Иван" "Директора" "Иванова Ивана" rfl (by decide) rfl rfl).trans (by decide)
  · exact (stage_failures_not_autoretried.2.2.2 envDown { } [] rfl).trans (by decide)

end Edo

namespace Edo

/-- `_send_to_diadoc` touches only the send and arbitration counters:
resolver, normalizer and filler state, logs and registry content pass
through unchanged. -/
lemma sendToDiadoc_frame (env : Env) (ds : List Decision) : ∀ st : St,
    (sendToDiadoc env st ds).2.1.resolveCalls = st.resolveCalls ∧
    (sendToDiadoc env st ds).2.1.normCalls = st.normCalls ∧
    (sendToDiadoc env st ds).2.1.fillCalls = st.fillCalls ∧
    (sendToDiadoc env st ds).2.1.fillArgs = st.fillArgs ∧
    (sendToDiadoc env st ds).2.1.logs = st.logs ∧
    (sendToDiadoc env st ds).2.1.writes = st.writes ∧
    (sendToDiadoc env st ds).2.1.store = st.store := by
  induction ds with
  | nil =>
    intro st
    rw [sendToDiadoc]
    by_cases h : env.send st.sendCalls <;> simp [h]
  | cons d rest ih =>
    intro st
    rw [sendToDiadoc]
    by_cases h : env.send st.sendCalls
    · simp [h]
    · cases d <;> simp [h, ih]

/-- C5 counterexample: with the resolver succeeding and the normalizer
failing, a single `retry` decision makes the resolver run again
(2 resolver calls, 2 normalizer calls after `retry`+`abort`): the retry
re-enters at the start of the record, not at the failed Case Normalizer
stage as the claim states. -/
theorem retry_reentry_claim_counterexample :
    (processUL envNormDown cp10 "КАДИС" { } [.retry, .abort]).2.1.resolveCalls = 2 ∧
    (processUL envNormDown cp10 "КАДИС" { } [.retry, .abort]).2.1.normCalls = 2 := by
  exact ⟨by decide, by decide⟩

/-- C5 amended: a `retry` decision after a transmission failure re-enters
the transmission stage only (and transmission never touches the other
stages), while a `retry` decision after a normalization or fill failure
re-runs the whole record from its start — the resolver runs again — not
just the failed stage. -/
theorem retry_reentry_semantics :
    (∀ (env : Env) (st : St) (rest : List Decision),
      env.send st.sendCalls = false →
      sendToDiadoc env st (.retry :: rest) =
        sendToDiadoc env
          { st with sendCalls := st.sendCalls + 1, arbCalls := st.arbCalls + 1 } rest) ∧
    (∀ (env : Env) (ds : List Decision) (st : St),
      (sendToDiadoc env st ds).2.1.resolveCalls = st.resolveCalls ∧
      (sendToDiadoc env st ds).2.1.normCalls = st.normCalls ∧
      (sendToDiadoc env st ds).2.1.fillCalls = st.fillCalls ∧
      (sendToDiadoc env st ds).2.1.store = st.store) ∧
    (∀ (env : Env) (cp : Counterparty) (company : String) (st : St) (rest : List Decision)
       (p f : String),
      env.resolve st.resolveCalls = some (p, f) → p ≠ "ИП" →
      env.normalize st.normCalls = none →
      processUL env cp company st (.retry :: rest) =
        processUL env cp company
          { st with resolveCalls := st.resolveCalls + 1, normCalls := st.normCalls + 1,
                    arbCalls := st.arbCalls + 1, logs := st.logs ++ [.resolveOk] } rest) ∧
    (∀ (env : Env) (cp : Counterparty) (company : String) (st : St) (rest : List Decision)
       (p f pg fg : String),
      env.resolve st.resolveCalls = some (p, f) → p ≠ "ИП" →
      env.normalize st.normCalls = some (pg, fg) →
      env.fill st.fillCalls = none →
      processUL env cp company st (.retry :: rest) =
        processUL env cp company
          { st with resolveCalls := st.resolveCalls + 1, normCalls := st.normCalls + 1,
                    fillCalls := st.fillCalls + 1, arbCalls := st.arbCalls + 1,
                    logs := st.logs ++ [.resolveOk],
                    fillArgs := st.fillArgs ++
                      [.ul company cp.name cp.inn cp.kpp p f (some pg) (some fg)] } rest) := by
  refine ⟨?_, ?_, ?_, ?_⟩
  · intro env st rest hsend
    conv_lhs => rw [sendToDiadoc]
    simp [hsend]
  · intro env ds st
    obtain ⟨h1, h2, h3, _, _, _, h7⟩ := sendToDiadoc_frame env ds st
    exact ⟨h1, h2, h3, h7⟩
  · intro env cp company st rest p f hres hp hnorm
    conv_lhs => rw [processUL, getHeadInfo_ok env st (p, f) hres]
    simp [hp, hnorm]
  · intro env cp company st rest p f pg fg hres hp hnorm hfill
    conv_lhs => rw [processUL, getHeadInfo_ok env st (p, f) hres]
    simp [hp, hnorm, hfill]

theorem retry_reentry_semantics_witness :
    processUL envNormDown cp10 "КАДИС" { } [.retry, .abort] =
      (false, { resolveCalls := 2, normCalls := 2, arbCalls := 2,
                logs := [.resolveOk, .resolveOk] }, []) ∧
    sendToDiadoc envDown { } [.retry] = (false, { sendCalls := 2, arbCalls := 1 }, []) := by
  constructor
  · exact (retry_reentry_semantics.2.2.1 envNormDown cp10 "КАДИС" { } [.abort]
      "Director" "Ivanov Ivan" rfl (by decide) rfl).trans (by decide)
  · exact (retry_reentry_semantics.1 envDown { } [] rfl).trans (by decide)

end Edo

namespace Edo

/-- C8 counterexample: after a Case Normalizer failure answered with
`skip`, the document is filled with the LOWERCASED title
(`position.lower()`), not the original nominative title: for resolved
title `Director` the fill call receives `director` as the degraded
genitive value, and `director ≠ Director`. -/
theorem skip_fallback_claim_counterexample :
    (processUL envNormDown cp10 "КАДИС" { } [.skip]).2.1.fillArgs =
      [.ul "КАДИС" "ООО Ромашка" "1234567890" "770101001" "Director" "Ivanov Ivan"
        (some "director") (some "Ivanov Ivan")] ∧
    ("director" : String) ≠ "Director" := by
  exact ⟨by decide, by decide⟩

/-- `_send_to_diadoc` on a successful upload: returns `true` consuming
no decision. -/
lemma sendToDiadoc_ok (env : Env) (st : St) (ds : List Decision)
    (h : env.send st.sendCalls = true) :
    sendToDiadoc env st ds = (true, { st with sendCalls := st.sendCalls + 1 }, ds) := by
  rw [sendToDiadoc.eq_def]
  simp [h]

/-- `_send_to_diadoc` on a failed upload answered with `skip`: reports
success. -/
lemma sendToDiadoc_skip (env : Env) (st : St) (rest : List Decision)
    (h : env.send st.sendCalls = false) :
    sendToDiadoc env st (.skip :: rest) =
      (true, { st with sendCalls := st.sendCalls + 1, arbCalls := st.arbCalls + 1 }, rest) := by
  rw [sendToDiadoc]
  simp [h]

/-- C8 amended: a `skip` decision is treated as stage success with a
degraded fallback: after a Case Normalizer skip the document is filled
with the lowercased nominative title and the unchanged name in place of
the genitive values, and the record completes (registry write with the
sent status); after a Transmission Client skip `_send_to_diadoc` reports
success, and the record is written to the registry with the sent status
and reported successful despite no document having been sent. -/
theorem skip_degraded_fallback :
    (∀ (env : Env) (cp : Counterparty) (company : String) (st : St) (rest : List Decision)
       (p f path : String),
      env.resolve st.resolveCalls = some (p, f) → p ≠ "ИП" →
      env.normalize st.normCalls = none →
      env.fill st.fillCalls = some path →
      env.send st.sendCalls = true →
      processUL env cp company st (.skip :: rest) =
        (true,
         { st with resolveCalls := st.resolveCalls + 1, normCalls := st.normCalls + 1,
                   fillCalls := st.fillCalls + 1, sendCalls := st.sendCalls + 1,
                   arbCalls := st.arbCalls + 1, logs := st.logs ++ [.resolveOk],
                   fillArgs := st.fillArgs ++
                     [.ul company cp.name cp.inn cp.kpp p f (some (lowerStr p)) (some f)],
                   writes := st.writes ++
                     [{ orgName := cp.name, inn := cp.inn, kpp := cp.kpp,
                        status := "Отправлено через Диадок", statusDate := env.now }],
                   store := st.store ++
                     [{ orgName := cp.name, inn := fix_inn_format cp.inn,
                        kpp := if cp.kpp ≠ "" then fix_inn_format cp.kpp else "",
                        statusDate := env.now }] },
         rest)) ∧
    (∀ (env : Env) (st : St) (rest : List Decision),
      env.send st.sendCalls = false →
      sendToDiadoc env st (.skip :: rest) =
        (true, { st with sendCalls := st.sendCalls + 1, arbCalls := st.arbCalls + 1 }, rest)) ∧
    (∀ (env : Env) (cp : Counterparty) (company : String) (st : St) (rest : List Decision)
       (p f pg fg path : String),
      env.resolve st.resolveCalls = some (p, f) → p ≠ "ИП" →
      env.normalize st.normCalls = some (pg, fg) →
      env.fill st.fillCalls = some path →
      env.send st.sendCalls = false →
      processUL env cp company st (.skip :: rest) =
        (true,
         { st with resolveCalls := st.resolveCalls + 1, normCalls := st.normCalls + 1,
                   fillCalls := st.fillCalls + 1, sendCalls := st.sendCalls + 1,
                   arbCalls := st.arbCalls + 1, logs := st.logs ++ [.resolveOk],
                   fillArgs := st.fillArgs ++
                     [.ul company cp.name cp.inn cp.kpp p f (some pg) (some fg)],
                   writes := st.writes ++
                     [{ orgName := cp.name, inn := cp.inn, kpp := cp.kpp,
                        status := "Отправлено через Диадок", statusDate := env.now }],
                   store := st.store ++
                     [{ orgName := cp.name, inn := fix_inn_format cp.inn,
                        kpp := if cp.kpp ≠ "" then fix_inn_format cp.kpp else "",
                        statusDate := env.now }] },
         rest)) := by
  refine ⟨?_, ?_, ?_⟩
  · intro env cp company st rest p f path hres hp hnorm hfill hsend
    conv_lhs => rw [processUL, getHeadInfo_ok env st (p, f) hres]
    simp [hp, hnorm, hfill, hsend, ulSendAndRecord, sendToDiadoc_ok, addCounterparty]
  · intro env st rest hsend
    exact sendToDiadoc_skip env st rest hsend
  · intro env cp company st rest p f pg fg path hres hp hnorm hfill hsend
    conv_lhs => rw [processUL, getHeadInfo_ok env st (p, f) hres]
    simp [hp, hnorm, hfill, hsend, ulSendAndRecord, sendToDiadoc_skip, addCounterparty]

theorem skip_degraded_fallback_witness :
    (processUL envNormDown cp10 "КАДИС" { } [.skip]).1 = true ∧
    (processUL envSendDown cp10 "КАДИС" { } [.skip]).1 = true ∧
    (processUL envSendDown cp10 "КАДИС" { } [.skip]).2.1.writes =
      [{ orgName := "ООО Ромашка", inn := "1234567890", kpp := "770101001",
         status := "Отправлено через Диадок", statusDate := "01.01.2025 10:00" }] ∧
    sendToDiadoc envDown { } [.skip] = (true, { sendCalls := 1, arbCalls := 1 }, []) := by
  refine ⟨?_, ?_, ?_, ?_⟩
  · rw [skip_degraded_fallback.1 envNormDown cp10 "КАДИС" { } [] "Director" "Ivanov Ivan"
      "path.docx" rfl (by decide) rfl rfl rfl]
  · rw [skip_degraded_fallback.2.2 envSendDown cp10 "КАДИС" { } [] "Директор" "Иванов Иван"
      "Директора" "Иванова Ивана" "path.docx" rfl (by decide) rfl rfl rfl]
  · rw [skip_degraded_fallback.2.2 envSendDown cp10 "КАДИС" { } [] "Директор" "Иванов Иван"
      "Директора" "Иванова Ивана" "path.docx" rfl (by decide) rfl rfl rfl]
    decide
  · exact (skip_degraded_fallback.2.1 envDown { } [] rfl).trans (by decide)

end Edo

namespace Edo

/-- Rows used by the period-run counterexample: two organizations with
in-range status dates. -/
def rowA : Counterparty :=
  { name := "A", inn := "1234567890", kpp := "", statusDate := "15.06.2024" }

/-- Second row, see `rowA`. -/
def rowB : Counterparty :=
  { name := "B", inn := "0987654321", kpp := "", statusDate := "15.06.2024" }

/-- C1 counterexample: in `process_counterparties` a candidate whose tax
ID has length 11 is NOT rejected by classification: it is routed to the
organization path and processed — the resolver is called (three
attempts here), contradicting `no resolver call` for invalid lengths. -/
theorem classification_claim_counterexample :
    (process_counterparties envDown "КАДИС" [cp11] { } []).2.1.resolveCalls = 3 ∧
    (process_counterparties envDown "КАДИС" [cp11] { } []).1 = (0, 1) := by
  exact ⟨by decide, by decide⟩

/-- C1 amended: in `process_counterparties` length 12 routes to the
sole-proprietor path and EVERY other length (including invalid ones)
routes to the organization path — there is no classification failure.
The three-way split by length exists only in the text of
`process_by_period`, which never reaches it: every call of
`process_by_period` fails with `AttributeError` on the nonexistent
`db_manager.columns` attribute before considering any row, so no
candidate in the program ever receives an immediate classification
failure. -/
theorem classification_routing :
    (∀ (env : Env) (company : String) (cp : Counterparty) (st : St) (ds : List Decision),
      cp.inn.length = 12 →
      processRecord env company cp st ds = processIP env cp company st ds) ∧
    (∀ (env : Env) (company : String) (cp : Counterparty) (st : St) (ds : List Decision),
      cp.inn.length ≠ 12 →
      processRecord env company cp st ds = processUL env cp company st ds) ∧
    (∀ (env : Env) (company : String) (rows : List Counterparty) (dFrom dTo : Date)
       (st : St) (ds : List Decision),
      processByPeriod env company rows dFrom dTo st ds = .error .attributeError) := by
  refine ⟨?_, ?_, ?_⟩
  · intro env company cp st ds h
    simp [processRecord, h]
  · intro env company cp st ds h
    simp [processRecord, h]
  · intro env company rows dFrom dTo st ds
    rfl

end Edo

namespace Edo

theorem classification_routing_witness :
    processRecord envDown "КАДИС" cp12 { } [] = processIP envDown cp12 "КАДИС" { } [] ∧
    processRecord envDown "КАДИС" cp11 { } [] = processUL envDown cp11 "КАДИС" { } [] := by
  constructor
  · exact classification_routing.1 envDown "КАДИС" cp12 { } [] (by decide)
  · exact classification_routing.2.1 envDown "КАДИС" cp11 { } [] (by decide)

/-- C2 counterexample: a batch run through the period entry point returns
no (successes, candidates-considered) pair at all: at this concrete
input — two in-range organization rows and an `abort` decision queued —
`process_by_period` fails with `AttributeError` on the nonexistent
`db_manager.columns` attribute before any candidate is considered, so
the run neither halts on the abort nor returns the claimed pair. -/
theorem batch_abort_claim_counterexample :
    processByPeriod envDown "КАДИС" [rowA, rowB] ⟨2024, 6, 1⟩ ⟨2024, 6, 30⟩ { } [.abort] =
      .error .attributeError := rfl

/-- C2 amended: in `process_counterparties` a failed record (any failure,
in particular an `abort` decision) terminates the batch at once — no
later candidate is attempted and the returned success count is exactly
the number of records that had already succeeded — and the run returns
the pair (successes, number of new candidates found).  `process_by_period`
never runs a batch at all: every call fails with `AttributeError` before
any candidate is considered, returning neither a pair nor a count. -/
theorem batch_abort_semantics :
    (∀ (env : Env) (company : String) (cp : Counterparty) (rest : List Counterparty)
       (st st1 : St) (ds ds1 : List Decision) (acc : Nat),
      processRecord env company cp st ds = (false, st1, ds1) →
      processLoop env company (cp :: rest) st ds acc = (acc, st1, ds1)) ∧
    (∀ (env : Env) (company : String) (cp : Counterparty) (rest : List Counterparty)
       (st st1 : St) (ds ds1 : List Decision) (acc : Nat),
      processRecord env company cp st ds = (true, st1, ds1) →
      processLoop env company (cp :: rest) st ds acc =
        processLoop env company rest st1 ds1 (acc + 1)) ∧
    (∀ (env : Env) (company : String) (rows : List Counterparty) (st : St)
       (ds : List Decision),
      (process_counterparties env company rows st ds).1.2 =
        (getNewCounterparties rows st.store).length ∧
      (process_counterparties env company rows st ds).1.1 =
        (processLoop env company (getNewCounterparties rows st.store) st ds 0).1) ∧
    (∀ (env : Env) (company : String) (rows : List Counterparty) (dFrom dTo : Date)
       (st : St) (ds : List Decision),
      processByPeriod env company rows dFrom dTo st ds = .error .attributeError) := by
  refine ⟨?_, ?_, ?_, ?_⟩
  · intro env company cp rest st st1 ds ds1 acc h
    rw [processLoop, h]
  · intro env company cp rest st st1 ds ds1 acc h
    rw [processLoop, h]
  · intro env company rows st ds
    unfold process_counterparties
    by_cases h : (getNewCounterparties rows st.store).length = 0
    · rw [if_pos h]
      rw [List.length_eq_zero.mp h]
      exact ⟨rfl, rfl⟩
    · rw [if_neg h]
      exact ⟨rfl, rfl⟩
  · intro env company rows dFrom dTo st ds
    rfl

theorem batch_abort_semantics_witness :
    processLoop envDown "КАДИС" [cp12, cp10] { } [] 0 =
      (0,
       { resolveCalls := 3,
         logs := [.resolveFail 1 3, .resolveFail 2 3, .resolveFail 3 3] },
       []) ∧
    (process_counterparties envDown "КАДИС" [cp11] { } []).1.2 =
      (getNewCounterparties [cp11] (St.store { })).length := by
  constructor
  · exact batch_abort_semantics.1 envDown "КАДИС" cp12 [cp10] { }
      { resolveCalls := 3, logs := [.resolveFail 1 3, .resolveFail 2 3, .resolveFail 3 3] }
      [] [] 0 (by decide)
  · exact (batch_abort_semantics.2.2.1 envDown "КАДИС" [cp11] { } []).1

/-- C10: a record that fails representative resolution and is skipped is
reported successful but writes nothing to the registry; a row whose tax
ID is absent from the registry is offered by `get_new_counterparties`;
hence the same tax ID is offered again on the next run over the same
source rows after such a skip. -/
theorem resolver_skip_reoffered :
    (∀ (env : Env) (cp : Counterparty) (company : String) (st : St) (rest : List Decision),
      env.resolve st.resolveCalls = none →
      env.resolve (st.resolveCalls + 1) = none →
      env.resolve (st.resolveCalls + 2) = none →
      processIP env cp company st (.skip :: rest) =
        (true,
         { st with resolveCalls := st.resolveCalls + 3, arbCalls := st.arbCalls + 1,
                   logs := st.logs ++ [.resolveFail 1 3, .resolveFail 2 3, .resolveFail 3 3] },
         rest)) ∧
    (∀ (rows : List Counterparty) (store : List StoredRow) (r : Counterparty),
      r ∈ rows → (fixRowFull r).inn ≠ "" →
      checkInnExists (fixRowFull r).inn store = false →
      fixRowFull r ∈ getNewCounterparties rows store) ∧
    (∀ (env : Env) (cp : Counterparty) (company : String) (st : St) (rest : List Decision)
       (rows : List Counterparty) (r : Counterparty),
      env.resolve st.resolveCalls = none →
      env.resolve (st.resolveCalls + 1) = none →
      env.resolve (st.resolveCalls + 2) = none →
      r ∈ rows → (fixRowFull r).inn ≠ "" →
      checkInnExists (fixRowFull r).inn st.store = false →
      fixRowFull r ∈
        getNewCounterparties rows (processIP env cp company st (.skip :: rest)).2.1.store) := by
  have hskip : ∀ (env : Env) (cp : Counterparty) (company : String) (st : St)
      (rest : List Decision),
      env.resolve st.resolveCalls = none →
      env.resolve (st.resolveCalls + 1) = none →
      env.resolve (st.resolveCalls + 2) = none →
      processIP env cp company st (.skip :: rest) =
        (true,
         { st with resolveCalls := st.resolveCalls + 3, arbCalls := st.arbCalls + 1,
                   logs := st.logs ++ [.resolveFail 1 3, .resolveFail 2 3, .resolveFail 3 3] },
         rest) := by
    intro env cp company st rest h0 h1 h2
    rw [processIP, getHeadInfo_fail env st h0 h1 h2]
  have hmem : ∀ (rows : List Counterparty) (store : List StoredRow) (r : Counterparty),
      r ∈ rows → (fixRowFull r).inn ≠ "" →
      checkInnExists (fixRowFull r).inn store = false →
      fixRowFull r ∈ getNewCounterparties rows store := by
    intro rows store r hr hinn hch
    unfold getNewCounterparties
    refine List.mem_filter.mpr ⟨List.mem_map_of_mem fixRowFull hr, ?_⟩
    simp [hinn, hch]
  refine ⟨hskip, hmem, ?_⟩
  intro env cp company st rest rows r h0 h1 h2 hr hinn hch
  rw [hskip env cp company st rest h0 h1 h2]
  exact hmem rows st.store r hr hinn hch

theorem resolver_skip_reoffered_witness :
    processIP envDown cp12 "КАДИС" { } [.skip] =
      (true,
       { resolveCalls := 3, arbCalls := 1,
         logs := [.resolveFail 1 3, .resolveFail 2 3, .resolveFail 3 3] },
       []) ∧
    fixRowFull cp10 ∈
      getNewCounterparties [cp10] (processIP envDown cp12 "КАДИС" { } [.skip]).2.1.store := by
  constructor
  · exact (resolver_skip_reoffered.1 envDown cp12 "КАДИС" { } [] rfl rfl rfl).trans (by decide)
  · exact resolver_skip_reoffered.2.2 envDown cp12 "КАДИС" { } [] [cp10] cp10
      rfl rfl rfl (by decide) (by decide) (by decide)
end Edo

namespace Edo

/-- Bool-negation coercion bridge. -/
lemma bnot_coe {b : Bool} : (!b) = true ↔ ¬(b = true) := by
  cases b <;> simp

/-- From the failure of `!b` conclude `b`. -/
lemma bnot_neg {b : Bool} (h : ¬((!b) = true)) : b = true := by
  cases b <;> simp_all

end Edo

namespace Edo

/-- C7 counterexample: a reply that echoes the input pair only up to
letter case (`general director|ivanov ivan` for input
`General Director` / `Ivanov Ivan`) is rejected by the code, yet none of
the claimed failure conditions hold for it: it is pipe-delimited with
non-empty parts and is not the input pair echoed unchanged — so the
claimed `exactly when` equivalence is false. -/
theorem normalizer_echo_claim_counterexample :
    parseGenitive "General Director".data "Ivanov Ivan".data
      "general director|ivanov ivan".data = none ∧
    ¬ formatViolationClaim "General Director".data "Ivanov Ivan".data
      "general director|ivanov ivan".data := by
  exact ⟨by decide, by decide⟩

/-- C7 amended: a single normalizer reply fails exactly when the cleaned
content lacks a pipe, has an empty part on either side of the first
pipe, or echoes the input pair up to letter case (case-insensitive
comparison); and the stage retries internally up to 3 attempts — it
surfaces failure to the caller exactly when all three attempts fail, and
returns the first successful attempt otherwise. -/
theorem normalizer_format_violation :
    (∀ position fio reply : List Char,
      parseGenitive position fio reply = none ↔ formatViolationCond position fio reply) ∧
    (∀ (position fio : List Char) (replies : Nat → Option (List Char)),
      convert_to_genitive position fio replies = none ↔
        (genitiveAttempt position fio replies 0 = none ∧
         genitiveAttempt position fio replies 1 = none ∧
         genitiveAttempt position fio replies 2 = none)) ∧
    (∀ (position fio : List Char) (replies : Nat → Option (List Char))
       (pr : List Char × List Char),
      genitiveAttempt position fio replies 0 = some pr →
      convert_to_genitive position fio replies = some pr) ∧
    (∀ (position fio : List Char) (replies : Nat → Option (List Char))
       (pr : List Char × List Char),
      genitiveAttempt position fio replies 0 = none →
      genitiveAttempt position fio replies 1 = some pr →
      convert_to_genitive position fio replies = some pr) ∧
    (∀ (position fio : List Char) (replies : Nat → Option (List Char))
       (pr : List Char × List Char),
      genitiveAttempt position fio replies 0 = none →
      genitiveAttempt position fio replies 1 = none →
      genitiveAttempt position fio replies 2 = some pr →
      convert_to_genitive position fio replies = some pr) := by
  refine ⟨?_, ?_, ?_, ?_, ?_⟩
  · intro position fio reply
    unfold parseGenitive formatViolationCond
    simp only []
    split_ifs with h1 h2 h3
    · exact iff_of_true rfl (Or.inl (bnot_coe.mp h1))
    · refine iff_of_true rfl ?_
      rcases h2 with h | h
      · exact Or.inr (Or.inl h)
      · exact Or.inr (Or.inr (Or.inl h))
    · exact iff_of_true rfl (Or.inr (Or.inr (Or.inr h3)))
    · refine iff_of_false (by simp) ?_
      rintro (h | h | h | h)
      · exact h (bnot_neg h1)
      · exact h2 (Or.inl h)
      · exact h2 (Or.inr h)
      · exact h3 h
  · intro position fio replies
    show convertGo position fio replies [0, 1, 2] = none ↔ _
    cases h0 : genitiveAttempt position fio replies 0 <;>
      cases h1 : genitiveAttempt position fio replies 1 <;>
        cases h2 : genitiveAttempt position fio replies 2 <;>
          simp [convertGo, h0, h1, h2]
  · intro position fio replies pr h0
    show convertGo position fio replies [0, 1, 2] = some pr
    simp [convertGo, h0]
  · intro position fio replies pr h0 h1
    show convertGo position fio replies [0, 1, 2] = some pr
    simp [convertGo, h0, h1]
  · intro position fio replies pr h0 h1 h2
    show convertGo position fio replies [0, 1, 2] = some pr
    simp [convertGo, h0, h1, h2]

/-- Reply stream fixture: every attempt returns a well-formed genitive
reply. -/
def repliesGood : Nat → Option (List Char) := fun _ => some "Directora|Ivanova".data

/-- Reply stream fixture: every attempt raises. -/
def repliesDown : Nat → Option (List Char) := fun _ => none

theorem normalizer_format_violation_witness :
    convert_to_genitive "Director".data "Ivanov".data repliesGood =
      some ("Directora".data, "Ivanova".data) ∧
    (convert_to_genitive "Director".data "Ivanov".data repliesDown = none ↔
      (genitiveAttempt "Director".data "Ivanov".data repliesDown 0 = none ∧
       genitiveAttempt "Director".data "Ivanov".data repliesDown 1 = none ∧
       genitiveAttempt "Director".data "Ivanov".data repliesDown 2 = none)) := by
  constructor
  · exact normalizer_format_violation.2.2.1 "Director".data "Ivanov".data repliesGood
      ("Directora".data, "Ivanova".data) (by decide)
  · exact normalizer_format_violation.2.1 "Director".data "Ivanov".data repliesDown

end Edo
